import Mathlib

/-!
Verification of the electrolysis simulation screen
(`ExperimentationScreen.tsx` and its variants).

The file embeds the production-rate model (Faraday and linear variants of
the `trackingInterval` callback), the chart windowing transforms, and the
bubble-population operations (`bubbleInterval` spawn, `removeInterval`
sweep) as executable Lean definitions over `ℚ`, `ℤ` and `List`, and proves
the specified properties about them.
-/

namespace Electroliza

/-- Build-time constant `productionFactor = 10` (ExperimentationScreen.tsx
line 144 and line 746 of the second component). -/
def productionFactor : ℚ := 10

/-- Faraday's constant `faraday = 96485` (coulombs per mole). -/
def faraday : ℚ := 96485

/-- Gas constant `gasConstant = 0.0821` L·atm/(mol·K). -/
def gasConstant : ℚ := 821 / 10000

/-- Temperature `temperature = 298` K. -/
def temperature : ℚ := 298

/-- Pressure `pressure = 1` atm. -/
def pressure : ℚ := 1

/-- The function `calculateGasRate(current, moles)` of the first component
(lines 151-154): `volume = (moles * gasConstant * temperature) / pressure;
return volume * 1000`.  The `current` parameter is bound but never read in
the body. -/
def calculateGasRate (current moles : ℚ) : ℚ :=
  let volume := (moles * gasConstant * temperature) / pressure
  volume * 1000

/-- Hydrogen rate passed to the series in the Faraday variant
(line 180): `calculateGasRate(current, current / (2 * faraday))`. -/
def hydrogenRate (current : ℚ) : ℚ :=
  calculateGasRate current (current / (2 * faraday))

/-- Oxygen rate passed to the series in the Faraday variant
(line 181): `calculateGasRate(current, current / (4 * faraday))`. -/
def oxygenRate (current : ℚ) : ℚ :=
  calculateGasRate current (current / (4 * faraday))

/-- Hydrogen increment of the linear variant (line 781):
`hydrogenProduced = current * productionFactor`. -/
def hydrogenProduced (current : ℚ) : ℚ := current * productionFactor

/-- Oxygen increment of the linear variant (line 782):
`oxygenProduced = (current * productionFactor) / 2`. -/
def oxygenProduced (current : ℚ) : ℚ := current * productionFactor / 2

/-- Model of `prev.slice(-1)[0] || 0`: the last element of the series, or 0
when the series is empty. -/
def lastOr0 (l : List ℚ) : ℚ := (l.getLast?).getD 0

/-- Production-series state owned by the component: the two cumulative
series (`hydrogenData`, `oxygenData`) and the elapsed-tick counter
(`time`). -/
structure ProdState where
  hydrogenData : List ℚ
  oxygenData : List ℚ
  time : ℕ
deriving DecidableEq

/-- Initial state: both series empty, `time = 0`. -/
def initState : ProdState := ⟨[], [], 0⟩

/-- One invocation of the `trackingInterval` callback, parameterised by the
per-tick increment formulas of the variant.  Both variants have the same
shape (lines 177-188 and 777-789): inside the callback, if
`voltage > 1 && current > 0.1`, each series gets
`prev.slice(-1)[0] || 0` plus the increment appended and `time` advances by
1; otherwise nothing happens. -/
def trackTick (hInc oInc : ℚ → ℚ) (voltage current : ℚ) (s : ProdState) :
    ProdState :=
  if 1 < voltage ∧ 1 / 10 < current then
    { hydrogenData := s.hydrogenData ++ [lastOr0 s.hydrogenData + hInc current]
      oxygenData := s.oxygenData ++ [lastOr0 s.oxygenData + oInc current]
      time := s.time + 1 }
  else s

/-- The Faraday-variant tick (first component, lines 177-188). -/
def tickFaraday : ℚ → ℚ → ProdState → ProdState :=
  trackTick hydrogenRate oxygenRate

/-- The linear-variant tick (second component, lines 777-789; also
`src/unnamed/part_000` lines 121-134). -/
def tickLinear : ℚ → ℚ → ProdState → ProdState :=
  trackTick hydrogenProduced oxygenProduced

/-- Run a tick function over a sequence of per-tick `(voltage, current)`
inputs. -/
def runTicks (tick : ℚ → ℚ → ProdState → ProdState)
    (inputs : List (ℚ × ℚ)) (s : ProdState) : ProdState :=
  inputs.foldl (fun st p => tick p.1 p.2 st) s

/-- Last `n` elements of a list: model of JavaScript `array.slice(-n)`
(for `n > 0`; when the list is shorter than `n` the whole list is
returned). -/
def lastN (n : ℕ) (l : List ℚ) : List ℚ := l.drop (l.length - n)

/-- Windowed chart view of the padded variants (first component lines
191-196, `part_000` lines 139-140):
`data.length ? [...Array(Math.max(0, 10 - data.length)).fill(0), ...data].slice(-10) : [0]`. -/
def chartDataPadded (data : List ℚ) : List ℚ :=
  if data.length = 0 then [0]
  else lastN 10 (List.replicate (10 - data.length) 0 ++ data)

/-- Windowed chart view of the second component (lines 793-794):
`data.slice(-10)` with no padding. -/
def chartDataPlain (data : List ℚ) : List ℚ := lastN 10 data

/-- Which tube a bubble belongs to. -/
inductive Side where
  | left
  | right
deriving DecidableEq

/-- A bubble: `id` is the spawn timestamp (`Date.now()`), `left` the random
horizontal position in percent, `side` the random tube. -/
structure Bubble where
  id : ℤ
  left : ℚ
  side : Side
deriving DecidableEq

/-- One firing opportunity of the `bubbleInterval` spawn (lines 156-168).
In the source the interval exists only while `voltage > 1 && current > 0.1`
holds, so when the gate is false no bubble is added; when it holds, the
callback appends one bubble with `id = Date.now()`,
`left = Math.random() * 80 + 10`, and
`side = Math.random() < 0.5 ? 'left' : 'right'`.  The two `Math.random()`
draws are the parameters `r1 r2 ∈ [0, 1)`. -/
def maybeSpawn (voltage current : ℚ) (now : ℤ) (r1 r2 : ℚ)
    (prev : List Bubble) : List Bubble :=
  if 1 < voltage ∧ 1 / 10 < current then
    prev ++ [{ id := now
               left := r1 * 80 + 10
               side := if r2 < 1 / 2 then Side.left else Side.right }]
  else prev

/-- One firing of the `removeInterval` sweep (lines 170-175):
`prev.filter(bubble => Date.now() - bubble.id < 3000)`. -/
def sweep (now : ℤ) (prev : List Bubble) : List Bubble :=
  prev.filter (fun b => decide (now - b.id < 3000))

/-- Fold a list of sweep timestamps over a population. -/
def runSweeps (ts : List ℤ) (pop : List Bubble) : List Bubble :=
  ts.foldl (fun p t => sweep t p) pop

/-- Whether the `useEffect` at lines 156-168 registers its interval: the
`setInterval` call is guarded by `if (voltage > 1 && current > 0.1)`. -/
def bubbleEffectRegisters (voltage current : ℚ) : Bool :=
  decide (1 < voltage) && decide (1 / 10 < current)

/-- Whether the `useEffect` at lines 170-175 registers its interval: the
`setInterval` call is unconditional (the effect has `[]` dependencies and
no guard). -/
def removeEffectRegisters (_voltage _current : ℚ) : Bool := true

/-- Whether the `useEffect` at lines 177-188 registers its interval: the
`setInterval` call is unconditional; only the callback body checks the
gate. -/
def trackingEffectRegisters (_voltage _current : ℚ) : Bool := true

/-! ## Helper lemmas -/

lemma trackTick_pos (hInc oInc : ℚ → ℚ) (v c : ℚ) (s : ProdState)
    (h : 1 < v ∧ 1 / 10 < c) :
    trackTick hInc oInc v c s =
      { hydrogenData := s.hydrogenData ++ [lastOr0 s.hydrogenData + hInc c]
        oxygenData := s.oxygenData ++ [lastOr0 s.oxygenData + oInc c]
        time := s.time + 1 } := by
  rw [trackTick, if_pos h]

lemma trackTick_neg (hInc oInc : ℚ → ℚ) (v c : ℚ) (s : ProdState)
    (h : ¬(1 < v ∧ 1 / 10 < c)) :
    trackTick hInc oInc v c s = s := by
  rw [trackTick, if_neg h]

lemma maybeSpawn_pos (v c : ℚ) (now : ℤ) (r1 r2 : ℚ) (prev : List Bubble)
    (h : 1 < v ∧ 1 / 10 < c) :
    maybeSpawn v c now r1 r2 prev =
      prev ++ [{ id := now
                 left := r1 * 80 + 10
                 side := if r2 < 1 / 2 then Side.left else Side.right }] := by
  rw [maybeSpawn, if_pos h]

lemma maybeSpawn_neg (v c : ℚ) (now : ℤ) (r1 r2 : ℚ) (prev : List Bubble)
    (h : ¬(1 < v ∧ 1 / 10 < c)) :
    maybeSpawn v c now r1 r2 prev = prev := by
  rw [maybeSpawn, if_neg h]

lemma runTicks_nil (tick : ℚ → ℚ → ProdState → ProdState) (s : ProdState) :
    runTicks tick [] s = s := rfl

lemma runTicks_cons (tick : ℚ → ℚ → ProdState → ProdState)
    (p : ℚ × ℚ) (inputs : List (ℚ × ℚ)) (s : ProdState) :
    runTicks tick (p :: inputs) s = runTicks tick inputs (tick p.1 p.2 s) := rfl

lemma lastOr0_le_of_forall₂ {l1 l2 : List ℚ}
    (h : List.Forall₂ (· ≤ ·) l1 l2) : lastOr0 l1 ≤ lastOr0 l2 := by
  induction h with
  | nil => exact le_refl 0
  | cons hab htail ih =>
    rename_i a b t1 t2
    cases htail with
    | nil => simpa [lastOr0] using hab
    | cons hcd htl =>
      rename_i x y u1 u2
      have e1 : lastOr0 (a :: x :: u1) = lastOr0 (x :: u1) := by
        rw [lastOr0, lastOr0, List.getLast?_cons_cons]
      have e2 : lastOr0 (b :: y :: u2) = lastOr0 (y :: u2) := by
        rw [lastOr0, lastOr0, List.getLast?_cons_cons]
      rw [e1, e2]
      exact ih

lemma chain_append_last (l : List ℚ) (x : ℚ) (hx : lastOr0 l ≤ x)
    (h : List.Chain' (· ≤ ·) l) : List.Chain' (· ≤ ·) (l ++ [x]) := by
  rw [List.chain'_append]
  refine ⟨h, List.chain'_singleton _, ?_⟩
  intro a ha b hb
  simp only [List.head?_cons, Option.mem_def, Option.some.injEq] at hb
  subst hb
  have : lastOr0 l = a := by rw [lastOr0, ha]; rfl
  linarith

/-- The stoichiometric relation `oxygenData[i] ≤ hydrogenData[i]` is
preserved by one `trackTick` whenever the oxygen increment never exceeds
the hydrogen increment above the gate. -/
lemma forall₂_trackTick (hInc oInc : ℚ → ℚ)
    (hle : ∀ c, 1 / 10 < c → oInc c ≤ hInc c) (v c : ℚ) (s : ProdState)
    (hs : List.Forall₂ (· ≤ ·) s.oxygenData s.hydrogenData) :
    List.Forall₂ (· ≤ ·) (trackTick hInc oInc v c s).oxygenData
      (trackTick hInc oInc v c s).hydrogenData := by
  by_cases hg : 1 < v ∧ 1 / 10 < c
  · rw [trackTick_pos _ _ _ _ _ hg]
    exact List.rel_append hs
      (List.Forall₂.cons
        (add_le_add (lastOr0_le_of_forall₂ hs) (hle c hg.2)) List.Forall₂.nil)
  · rw [trackTick_neg _ _ _ _ _ hg]
    exact hs

lemma forall₂_runTicks (hInc oInc : ℚ → ℚ)
    (hle : ∀ c, 1 / 10 < c → oInc c ≤ hInc c) (inputs : List (ℚ × ℚ)) :
    ∀ s : ProdState,
      List.Forall₂ (· ≤ ·) s.oxygenData s.hydrogenData →
      List.Forall₂ (· ≤ ·)
        (runTicks (trackTick hInc oInc) inputs s).oxygenData
        (runTicks (trackTick hInc oInc) inputs s).hydrogenData := by
  induction inputs with
  | nil => intro s hs; exact hs
  | cons p rest ih =>
    intro s hs
    rw [runTicks_cons]
    exact ih _ (forall₂_trackTick hInc oInc hle p.1 p.2 s hs)

/-- Every run of ticks only appends to both series. -/
lemma runTicks_append_only (hInc oInc : ℚ → ℚ) (inputs : List (ℚ × ℚ)) :
    ∀ s : ProdState,
      (∃ t, (runTicks (trackTick hInc oInc) inputs s).hydrogenData
          = s.hydrogenData ++ t) ∧
      (∃ t, (runTicks (trackTick hInc oInc) inputs s).oxygenData
          = s.oxygenData ++ t) := by
  induction inputs with
  | nil => intro s; exact ⟨⟨[], (List.append_nil _).symm⟩, ⟨[], (List.append_nil _).symm⟩⟩
  | cons p rest ih =>
    intro s
    rw [runTicks_cons]
    by_cases hg : 1 < p.1 ∧ 1 / 10 < p.2
    · rw [trackTick_pos _ _ _ _ _ hg]
      obtain ⟨⟨t, ht⟩, ⟨u, hu⟩⟩ := ih
        { hydrogenData := s.hydrogenData ++ [lastOr0 s.hydrogenData + hInc p.2]
          oxygenData := s.oxygenData ++ [lastOr0 s.oxygenData + oInc p.2]
          time := s.time + 1 }
      refine ⟨⟨(lastOr0 s.hydrogenData + hInc p.2) :: t, ?_⟩,
        ⟨(lastOr0 s.oxygenData + oInc p.2) :: u, ?_⟩⟩
      · rw [ht]; simp
      · rw [hu]; simp
    · rw [trackTick_neg _ _ _ _ _ hg]
      exact ih s

/-- Monotonicity of both series is preserved by runs of ticks whenever both
increments are nonnegative above the gate. -/
lemma chain'_runTicks (hInc oInc : ℚ → ℚ)
    (hpos : ∀ c, 1 / 10 < c → 0 ≤ hInc c ∧ 0 ≤ oInc c)
    (inputs : List (ℚ × ℚ)) :
    ∀ s : ProdState,
      List.Chain' (· ≤ ·) s.hydrogenData →
      List.Chain' (· ≤ ·) s.oxygenData →
      List.Chain' (· ≤ ·) (runTicks (trackTick hInc oInc) inputs s).hydrogenData ∧
      List.Chain' (· ≤ ·) (runTicks (trackTick hInc oInc) inputs s).oxygenData := by
  induction inputs with
  | nil => intro s h1 h2; exact ⟨h1, h2⟩
  | cons p rest ih =>
    intro s h1 h2
    rw [runTicks_cons]
    by_cases hg : 1 < p.1 ∧ 1 / 10 < p.2
    · rw [trackTick_pos _ _ _ _ _ hg]
      exact ih _
        (chain_append_last _ _ (le_add_of_nonneg_right (hpos p.2 hg.2).1) h1)
        (chain_append_last _ _ (le_add_of_nonneg_right (hpos p.2 hg.2).2) h2)
    · rw [trackTick_neg _ _ _ _ _ hg]
      exact ih _ h1 h2

lemma oxygenRate_half (c : ℚ) : oxygenRate c = hydrogenRate c / 2 := by
  rw [oxygenRate, hydrogenRate, calculateGasRate, calculateGasRate, faraday]
  ring

lemma hydrogenRate_nonneg (c : ℚ) (hc : 0 ≤ c) : 0 ≤ hydrogenRate c := by
  rw [hydrogenRate, calculateGasRate, gasConstant, temperature, pressure, faraday]
  positivity

lemma oxygenProduced_half (c : ℚ) : oxygenProduced c = hydrogenProduced c / 2 := by
  rw [oxygenProduced, hydrogenProduced]

lemma faradayIncs_le (c : ℚ) (hc : 1 / 10 < c) : oxygenRate c ≤ hydrogenRate c := by
  have h := hydrogenRate_nonneg c (by linarith)
  rw [oxygenRate_half]
  linarith

lemma linearIncs_le (c : ℚ) (hc : 1 / 10 < c) :
    oxygenProduced c ≤ hydrogenProduced c := by
  rw [oxygenProduced, hydrogenProduced, productionFactor]
  nlinarith

lemma faradayIncs_nonneg (c : ℚ) (hc : 1 / 10 < c) :
    0 ≤ hydrogenRate c ∧ 0 ≤ oxygenRate c := by
  have h := hydrogenRate_nonneg c (by linarith)
  have h2 := oxygenRate_half c
  exact ⟨h, by linarith⟩

lemma linearIncs_nonneg (c : ℚ) (hc : 1 / 10 < c) :
    0 ≤ hydrogenProduced c ∧ 0 ≤ oxygenProduced c := by
  rw [hydrogenProduced, oxygenProduced, productionFactor]
  constructor <;> nlinarith

/-! ## Claims -/

/-- C2.  Stoichiometric invariant: in every state reachable by ticks from
the initial state, `oxygenData[i] ≤ hydrogenData[i]` pointwise (stated as
`Forall₂`), under both the Faraday and the linear variant; and for every
current in `[0.1, 5]` the per-tick oxygen increment is at most half the
hydrogen increment in both variants. -/
theorem claim2_stoichiometric_invariant (inputs : List (ℚ × ℚ)) (c : ℚ)
    (h1 : 1 / 10 ≤ c) (h2 : c ≤ 5) :
    List.Forall₂ (· ≤ ·) (runTicks tickFaraday inputs initState).oxygenData
      (runTicks tickFaraday inputs initState).hydrogenData ∧
    List.Forall₂ (· ≤ ·) (runTicks tickLinear inputs initState).oxygenData
      (runTicks tickLinear inputs initState).hydrogenData ∧
    oxygenRate c ≤ hydrogenRate c / 2 ∧
    oxygenProduced c ≤ hydrogenProduced c / 2 := by
  refine ⟨?_, ?_, ?_, ?_⟩
  · exact forall₂_runTicks hydrogenRate oxygenRate faradayIncs_le inputs
      initState List.Forall₂.nil
  · exact forall₂_runTicks hydrogenProduced oxygenProduced linearIncs_le inputs
      initState List.Forall₂.nil
  · rw [oxygenRate_half]
  · rw [oxygenProduced_half]

/-- Witness for C2 at one active tick and `current = 1/2`. -/
theorem claim2_witness :
    List.Forall₂ (· ≤ ·)
      (runTicks tickFaraday [(5, 1 / 2)] initState).oxygenData
      (runTicks tickFaraday [(5, 1 / 2)] initState).hydrogenData ∧
    List.Forall₂ (· ≤ ·)
      (runTicks tickLinear [(5, 1 / 2)] initState).oxygenData
      (runTicks tickLinear [(5, 1 / 2)] initState).hydrogenData ∧
    oxygenRate (1 / 2) ≤ hydrogenRate (1 / 2) / 2 ∧
    oxygenProduced (1 / 2) ≤ hydrogenProduced (1 / 2) / 2 :=
  claim2_stoichiometric_invariant [(5, 1 / 2)] (1 / 2)
    (by norm_num) (by norm_num)

/-- C5.  Monotone, append-only series: under either variant a run of ticks
only ever appends to both series; a single tick either leaves the state
unchanged or appends exactly one element that is at least the previous last
value; and the series produced from the initial state are monotonically
non-decreasing. -/
theorem claim5_monotone_append_only (inputs : List (ℚ × ℚ))
    (hdom : ∀ p ∈ inputs, 1 ≤ p.1 ∧ p.1 ≤ 12 ∧ 1 / 10 ≤ p.2 ∧ p.2 ≤ 5)
    (s : ProdState) (voltage current : ℚ) :
    (∃ t, (runTicks tickFaraday inputs s).hydrogenData = s.hydrogenData ++ t) ∧
    (∃ t, (runTicks tickFaraday inputs s).oxygenData = s.oxygenData ++ t) ∧
    (∃ t, (runTicks tickLinear inputs s).hydrogenData = s.hydrogenData ++ t) ∧
    (∃ t, (runTicks tickLinear inputs s).oxygenData = s.oxygenData ++ t) ∧
    (tickFaraday voltage current s = s ∨
      ((tickFaraday voltage current s).hydrogenData
          = s.hydrogenData ++ [lastOr0 s.hydrogenData + hydrogenRate current] ∧
        (tickFaraday voltage current s).oxygenData
          = s.oxygenData ++ [lastOr0 s.oxygenData + oxygenRate current] ∧
        lastOr0 s.hydrogenData ≤ lastOr0 s.hydrogenData + hydrogenRate current ∧
        lastOr0 s.oxygenData ≤ lastOr0 s.oxygenData + oxygenRate current)) ∧
    (tickLinear voltage current s = s ∨
      ((tickLinear voltage current s).hydrogenData
          = s.hydrogenData ++ [lastOr0 s.hydrogenData + hydrogenProduced current] ∧
        (tickLinear voltage current s).oxygenData
          = s.oxygenData ++ [lastOr0 s.oxygenData + oxygenProduced current] ∧
        lastOr0 s.hydrogenData ≤ lastOr0 s.hydrogenData + hydrogenProduced current ∧
        lastOr0 s.oxygenData ≤ lastOr0 s.oxygenData + oxygenProduced current)) ∧
    List.Chain' (· ≤ ·) (runTicks tickFaraday inputs initState).hydrogenData ∧
    List.Chain' (· ≤ ·) (runTicks tickFaraday inputs initState).oxygenData ∧
    List.Chain' (· ≤ ·) (runTicks tickLinear inputs initState).hydrogenData ∧
    List.Chain' (· ≤ ·) (runTicks tickLinear inputs initState).oxygenData := by
  obtain ⟨hF1, hF2⟩ := runTicks_append_only hydrogenRate oxygenRate inputs s
  obtain ⟨hL1, hL2⟩ := runTicks_append_only hydrogenProduced oxygenProduced inputs s
  obtain ⟨cF1, cF2⟩ := chain'_runTicks hydrogenRate oxygenRate
    faradayIncs_nonneg inputs initState List.chain'_nil List.chain'_nil
  obtain ⟨cL1, cL2⟩ := chain'_runTicks hydrogenProduced oxygenProduced
    linearIncs_nonneg inputs initState List.chain'_nil List.chain'_nil
  refine ⟨hF1, hF2, hL1, hL2, ?_, ?_, cF1, cF2, cL1, cL2⟩
  · by_cases hg : 1 < voltage ∧ 1 / 10 < current
    · right
      rw [tickFaraday, trackTick_pos _ _ _ _ _ hg]
      exact ⟨rfl, rfl,
        le_add_of_nonneg_right (faradayIncs_nonneg current hg.2).1,
        le_add_of_nonneg_right (faradayIncs_nonneg current hg.2).2⟩
    · left
      exact trackTick_neg _ _ _ _ _ hg
  · by_cases hg : 1 < voltage ∧ 1 / 10 < current
    · right
      rw [tickLinear, trackTick_pos _ _ _ _ _ hg]
      exact ⟨rfl, rfl,
        le_add_of_nonneg_right (linearIncs_nonneg current hg.2).1,
        le_add_of_nonneg_right (linearIncs_nonneg current hg.2).2⟩
    · left
      exact trackTick_neg _ _ _ _ _ hg

/-- Witness for C5 at one in-domain tick input. -/
theorem claim5_witness :
    (∃ t, (runTicks tickFaraday [(5, 1 / 2)] initState).hydrogenData
        = initState.hydrogenData ++ t) ∧
    (∃ t, (runTicks tickFaraday [(5, 1 / 2)] initState).oxygenData
        = initState.oxygenData ++ t) ∧
    (∃ t, (runTicks tickLinear [(5, 1 / 2)] initState).hydrogenData
        = initState.hydrogenData ++ t) ∧
    (∃ t, (runTicks tickLinear [(5, 1 / 2)] initState).oxygenData
        = initState.oxygenData ++ t) ∧
    (tickFaraday 5 (1 / 2) initState = initState ∨
      ((tickFaraday 5 (1 / 2) initState).hydrogenData
          = initState.hydrogenData
            ++ [lastOr0 initState.hydrogenData + hydrogenRate (1 / 2)] ∧
        (tickFaraday 5 (1 / 2) initState).oxygenData
          = initState.oxygenData
            ++ [lastOr0 initState.oxygenData + oxygenRate (1 / 2)] ∧
        lastOr0 initState.hydrogenData
          ≤ lastOr0 initState.hydrogenData + hydrogenRate (1 / 2) ∧
        lastOr0 initState.oxygenData
          ≤ lastOr0 initState.oxygenData + oxygenRate (1 / 2))) ∧
    (tickLinear 5 (1 / 2) initState = initState ∨
      ((tickLinear 5 (1 / 2) initState).hydrogenData
          = initState.hydrogenData
            ++ [lastOr0 initState.hydrogenData + hydrogenProduced (1 / 2)] ∧
        (tickLinear 5 (1 / 2) initState).oxygenData
          = initState.oxygenData
            ++ [lastOr0 initState.oxygenData + oxygenProduced (1 / 2)] ∧
        lastOr0 initState.hydrogenData
          ≤ lastOr0 initState.hydrogenData + hydrogenProduced (1 / 2) ∧
        lastOr0 initState.oxygenData
          ≤ lastOr0 initState.oxygenData + oxygenProduced (1 / 2))) ∧
    List.Chain' (· ≤ ·)
      (runTicks tickFaraday [(5, 1 / 2)] initState).hydrogenData ∧
    List.Chain' (· ≤ ·)
      (runTicks tickFaraday [(5, 1 / 2)] initState).oxygenData ∧
    List.Chain' (· ≤ ·)
      (runTicks tickLinear [(5, 1 / 2)] initState).hydrogenData ∧
    List.Chain' (· ≤ ·)
      (runTicks tickLinear [(5, 1 / 2)] initState).oxygenData :=
  claim5_monotone_append_only [(5, 1 / 2)]
    (by intro p hp; simp at hp; rw [hp]; norm_num) initState 5 (1 / 2)

/-- C10.  `calculateGasRate` is independent of its first argument: the
`current` parameter is accepted but never read, so the result is determined
solely by `moles`. -/
theorem claim10_calculateGasRate_ignores_current (c1 c2 moles : ℚ) :
    calculateGasRate c1 moles = calculateGasRate c2 moles := rfl

/-- C4.  Faraday-model rate correctness: the hydrogen rate fed to the
series equals `current / (2 * 96485)` scaled by the ideal-gas volumetric
factor `0.0821 * 298 / 1 * 1000`, the oxygen rate likewise with
`current / (4 * 96485)`, `calculateGasRate` is exactly that volumetric
conversion of its `moles` argument, and at `current = 0.5` the hydrogen
volumetric rate is within `10⁻⁴` of `0.0634` mL/s. -/
theorem claim4_faraday_rate_correctness (c moles : ℚ) :
    calculateGasRate c moles = moles * (821 / 10000) * 298 / 1 * 1000 ∧
    hydrogenRate c = c / (2 * 96485) * (821 / 10000) * 298 / 1 * 1000 ∧
    oxygenRate c = c / (4 * 96485) * (821 / 10000) * 298 / 1 * 1000 ∧
    |hydrogenRate (1 / 2) - 634 / 10000| < 1 / 10000 := by
  refine ⟨?_, ?_, ?_, ?_⟩
  · rw [calculateGasRate, gasConstant, temperature, pressure]
  · rw [hydrogenRate, calculateGasRate, gasConstant, temperature, pressure,
      faraday]
  · rw [oxygenRate, calculateGasRate, gasConstant, temperature, pressure,
      faraday]
  · rw [hydrogenRate, calculateGasRate, gasConstant, temperature, pressure,
      faraday]
    norm_num [abs]

/-- C3.  Linear-model tick correctness: under the gate each tick appends
`current * 10` on top of the last hydrogen value and `current * 5` on top
of the last oxygen value, and the concrete two-tick scenario with
`voltage = 5`, `current = 0.5` yields `hydrogenData = [5, 10]` and
`oxygenData = [5/2, 5]`. -/
theorem claim3_linear_tick_correctness (voltage current : ℚ) (s : ProdState)
    (hv : 1 < voltage) (hc : 1 / 10 < current) :
    (tickLinear voltage current s).hydrogenData
      = s.hydrogenData ++ [lastOr0 s.hydrogenData + current * 10] ∧
    (tickLinear voltage current s).oxygenData
      = s.oxygenData ++ [lastOr0 s.oxygenData + current * 5] ∧
    runTicks tickLinear [(5, 1 / 2)] initState
      = ⟨[5], [5 / 2], 1⟩ ∧
    runTicks tickLinear [(5, 1 / 2), (5, 1 / 2)] initState
      = ⟨[5, 10], [5 / 2, 5], 2⟩ := by
  have h2 : runTicks tickLinear [(5, 1 / 2)] initState = ⟨[5], [5 / 2], 1⟩ := by
    show tickLinear 5 (1 / 2) initState = _
    rw [tickLinear, trackTick_pos _ _ _ _ _ (by norm_num)]
    simp [lastOr0, initState, hydrogenProduced, oxygenProduced, productionFactor]
    norm_num
  have h3 : runTicks tickLinear [(5, 1 / 2), (5, 1 / 2)] initState
      = ⟨[5, 10], [5 / 2, 5], 2⟩ := by
    show tickLinear 5 (1 / 2) (tickLinear 5 (1 / 2) initState) = _
    have : tickLinear 5 (1 / 2) initState = ⟨[5], [5 / 2], 1⟩ := h2
    rw [this, tickLinear, trackTick_pos _ _ _ _ _ (by norm_num)]
    simp [lastOr0, hydrogenProduced, oxygenProduced, productionFactor]
    norm_num
  refine ⟨?_, ?_, h2, h3⟩
  · rw [tickLinear, trackTick_pos _ _ _ _ _ ⟨hv, hc⟩]
    simp [hydrogenProduced, productionFactor]
  · rw [tickLinear, trackTick_pos _ _ _ _ _ ⟨hv, hc⟩]
    simp [oxygenProduced, productionFactor]
    ring

/-- Witness for C3 at `voltage = 5`, `current = 1/2`, the empty state. -/
theorem claim3_witness :
    (tickLinear 5 (1 / 2) initState).hydrogenData
      = initState.hydrogenData ++ [lastOr0 initState.hydrogenData + (1 / 2) * 10] ∧
    (tickLinear 5 (1 / 2) initState).oxygenData
      = initState.oxygenData ++ [lastOr0 initState.oxygenData + (1 / 2) * 5] ∧
    runTicks tickLinear [(5, 1 / 2)] initState
      = ⟨[5], [5 / 2], 1⟩ ∧
    runTicks tickLinear [(5, 1 / 2), (5, 1 / 2)] initState
      = ⟨[5, 10], [5 / 2, 5], 2⟩ :=
  claim3_linear_tick_correctness 5 (1 / 2) initState (by norm_num) (by norm_num)

/-- C1.  Activation gate on the production tick and bubble spawn: when
`voltage ≤ 1` or `current ≤ 0.1` the tick leaves both series and the
counter untouched and no bubble is spawned; when `voltage > 1` and
`current > 0.1` the tick appends exactly one sample to each series and
advances the counter by 1. -/
theorem claim1_activation_gate (voltage current : ℚ) (s : ProdState)
    (now : ℤ) (r1 r2 : ℚ) (prev : List Bubble) :
    (voltage ≤ 1 ∨ current ≤ 1 / 10 →
      tickFaraday voltage current s = s ∧
      maybeSpawn voltage current now r1 r2 prev = prev) ∧
    (1 < voltage ∧ 1 / 10 < current →
      (tickFaraday voltage current s).hydrogenData.length
        = s.hydrogenData.length + 1 ∧
      (tickFaraday voltage current s).oxygenData.length
        = s.oxygenData.length + 1 ∧
      (tickFaraday voltage current s).time = s.time + 1) := by
  constructor
  · intro h
    have hng : ¬(1 < voltage ∧ 1 / 10 < current) := by
      rintro ⟨h1, h2⟩
      rcases h with h | h
      · exact absurd h1 (not_lt.mpr h)
      · exact absurd h2 (not_lt.mpr h)
    exact ⟨trackTick_neg _ _ _ _ _ hng, maybeSpawn_neg _ _ _ _ _ _ hng⟩
  · intro hg
    rw [tickFaraday, trackTick_pos _ _ _ _ _ hg]
    simp

/-- Witness for C1: the blocked case at `voltage = 1/2`, `current = 5` and
the active case at `voltage = 5`, `current = 1/2`. -/
theorem claim1_witness :
    (tickFaraday (1 / 2) 5 initState = initState ∧
      maybeSpawn (1 / 2) 5 0 0 0 [] = []) ∧
    ((tickFaraday 5 (1 / 2) initState).hydrogenData.length
        = initState.hydrogenData.length + 1 ∧
      (tickFaraday 5 (1 / 2) initState).oxygenData.length
        = initState.oxygenData.length + 1 ∧
      (tickFaraday 5 (1 / 2) initState).time = initState.time + 1) :=
  ⟨(claim1_activation_gate (1 / 2) 5 initState 0 0 0 []).1
      (Or.inl (by norm_num)),
   (claim1_activation_gate 5 (1 / 2) initState 0 0 0 []).2
      ⟨by norm_num, by norm_num⟩⟩

/-- Membership after a list of sweeps: a bubble survives exactly when it
was present before and every sweep ran strictly before its expiry. -/
lemma mem_runSweeps (ts : List ℤ) (pop : List Bubble) (b : Bubble) :
    b ∈ runSweeps ts pop ↔ b ∈ pop ∧ ∀ t ∈ ts, t - b.id < 3000 := by
  induction ts generalizing pop with
  | nil => simp [runSweeps]
  | cons t rest ih =>
    have e : runSweeps (t :: rest) pop = runSweeps rest (sweep t pop) := rfl
    rw [e, ih]
    simp [sweep, List.mem_filter, List.forall_mem_cons]
    tauto

/-- C6 counterexample.  In the second component the windowed view is
`hydrogenData.slice(-10)` with no padding: with 3 elapsed ticks the view
has 3 points, not 10, refuting the claim that every variant left-pads to
10 points below 10 ticks.  (The padded variant also returns the single
point `[0]`, not 10 zeros, when no tick has elapsed.) -/
theorem claim6_counterexample :
    chartDataPlain [5, 10, 15] = [5, 10, 15] ∧
    (chartDataPlain [5, 10, 15]).length ≠ 10 ∧
    chartDataPadded [] = [0] ∧
    (chartDataPadded []).length ≠ 10 := by
  refine ⟨rfl, ?_, rfl, ?_⟩
  · simp [chartDataPlain, lastN]
  · simp [chartDataPadded]

/-- C6 amended.  Once 10 or more ticks have elapsed both windowed views
expose exactly the last 10 samples; below 10 ticks only the padded
variants left-pad with zeros to 10 points (and return the single point
`[0]` when no tick has elapsed), while the second component's view returns
the unpadded samples. -/
theorem claim6_windowed_view (data : List ℚ) :
    (10 ≤ data.length →
      chartDataPadded data = lastN 10 data ∧
      (chartDataPadded data).length = 10 ∧
      chartDataPlain data = lastN 10 data ∧
      (chartDataPlain data).length = 10) ∧
    (1 ≤ data.length → data.length < 10 →
      chartDataPadded data = List.replicate (10 - data.length) 0 ++ data ∧
      (chartDataPadded data).length = 10) ∧
    chartDataPadded [] = [0] ∧
    (data.length < 10 → chartDataPlain data = data) := by
  refine ⟨?_, ?_, rfl, ?_⟩
  · intro h10
    have hne : ¬data.length = 0 := by omega
    have e : chartDataPadded data
        = lastN 10 (List.replicate (10 - data.length) 0 ++ data) := by
      rw [chartDataPadded, if_neg hne]
    have hrep : 10 - data.length = 0 := by omega
    rw [e, hrep]
    have e2 : lastN 10 (List.replicate 0 (0 : ℚ) ++ data) = lastN 10 data := by
      simp
    rw [e2]
    have hlen : (lastN 10 data).length = 10 := by
      rw [lastN, List.length_drop]; omega
    exact ⟨rfl, hlen, rfl, hlen⟩
  · intro h1 h10
    have hne : ¬data.length = 0 := by omega
    have e : chartDataPadded data
        = lastN 10 (List.replicate (10 - data.length) 0 ++ data) := by
      rw [chartDataPadded, if_neg hne]
    have hlen : (List.replicate (10 - data.length) (0 : ℚ) ++ data).length = 10 := by
      simp; omega
    have e2 : lastN 10 (List.replicate (10 - data.length) 0 ++ data)
        = List.replicate (10 - data.length) 0 ++ data := by
      rw [lastN, hlen]
      simp
    rw [e, e2]
    refine ⟨rfl, ?_⟩
    rw [hlen]
  · intro h10
    rw [chartDataPlain, lastN]
    have : data.length - 10 = 0 := by omega
    rw [this]
    exact List.drop_zero data

/-- Witness for C6 amended: a full window, a short window, and the empty
series. -/
theorem claim6_witness :
    ((10 : ℕ) ≤ ([1, 2, 3, 4, 5, 6, 7, 8, 9, 10, 11] : List ℚ).length ∧
      chartDataPadded [1, 2, 3, 4, 5, 6, 7, 8, 9, 10, 11]
        = lastN 10 [1, 2, 3, 4, 5, 6, 7, 8, 9, 10, 11]) ∧
    ((1 : ℕ) ≤ ([5, 10, 15] : List ℚ).length ∧
      ([5, 10, 15] : List ℚ).length < 10 ∧
      chartDataPadded [5, 10, 15]
        = List.replicate (10 - ([5, 10, 15] : List ℚ).length) 0 ++ [5, 10, 15] ∧
      (chartDataPadded [5, 10, 15]).length = 10) ∧
    chartDataPlain [5, 10, 15] = [5, 10, 15] :=
  ⟨⟨by norm_num, ((claim6_windowed_view [1, 2, 3, 4, 5, 6, 7, 8, 9, 10, 11]).1
      (by norm_num)).1⟩,
   ⟨by norm_num, by norm_num,
    (claim6_windowed_view [5, 10, 15]).2.1 (by norm_num) (by norm_num)⟩,
   (claim6_windowed_view [5, 10, 15]).2.2.2 (by norm_num)⟩

/-- C7 counterexample.  The bubble spawned at `T = 0` (lifetime 3000 ms) is
still in the population when queried at time 3100 ≥ T + 3000, because the
only sweep so far ran at 2900: removal happens only at sweep instants, so
the claim's unconditional absence for every query at `T' ≥ T + lifetime`
fails. -/
theorem claim7_counterexample :
    (⟨0, 50, Side.left⟩ : Bubble) ∈ runSweeps [2900] [⟨0, 50, Side.left⟩] ∧
    (0 : ℤ) + 3000 ≤ 3100 := by
  constructor
  · rw [mem_runSweeps]
    refine ⟨by simp, ?_⟩
    intro t ht
    simp at ht
    subst ht
    show (2900 : ℤ) - 0 < 3000
    norm_num
  · norm_num

/-- C7 amended.  A bubble spawned at time `T` stays in the population
exactly as long as every sweep that has run since its spawn happened
strictly before `T + 3000`; it is removed by the first sweep at a time
`≥ T + 3000` (so after expiry it can linger only until the next sweep, at
most 500 ms). -/
theorem claim7_bubble_lifecycle (T : ℤ) (l : ℚ) (sd : Side)
    (pop : List Bubble) (ts : List ℤ) :
    (⟨T, l, sd⟩ : Bubble) ∈ runSweeps ts (pop ++ [⟨T, l, sd⟩]) ↔
      ∀ t ∈ ts, t < T + 3000 := by
  rw [mem_runSweeps]
  constructor
  · rintro ⟨-, h⟩ t ht
    have h2 : t - T < 3000 := h t ht
    omega
  · intro h
    refine ⟨by simp, ?_⟩
    intro t ht
    have h2 := h t ht
    show t - T < 3000
    omega

/-- Witness for C7 amended: the bubble spawned at 0 survives the sweeps at
500 and 1000, both before expiry. -/
theorem claim7_witness :
    (⟨0, 50, Side.left⟩ : Bubble)
      ∈ runSweeps [500, 1000] ([] ++ [⟨0, 50, Side.left⟩]) :=
  (claim7_bubble_lifecycle 0 50 Side.left [] [500, 1000]).mpr (by decide)

/-- C8.  Spawn attributes: under the gate, exactly one bubble is appended,
its `id` is the spawn time, its horizontal position `r1 * 80 + 10` lies in
`[10, 90]` for the uniform draw `r1 ∈ [0, 1)`, its side is `left` exactly
when the uniform draw `r2` falls below `1/2`, and the previously present
bubbles are unchanged. -/
theorem claim8_spawn_attributes (voltage current : ℚ) (now : ℤ) (r1 r2 : ℚ)
    (prev : List Bubble) (hv : 1 < voltage) (hc : 1 / 10 < current)
    (h1 : 0 ≤ r1) (h2 : r1 < 1) :
    maybeSpawn voltage current now r1 r2 prev
      = prev ++ [{ id := now
                   left := r1 * 80 + 10
                   side := if r2 < 1 / 2 then Side.left else Side.right }] ∧
    10 ≤ r1 * 80 + 10 ∧ r1 * 80 + 10 ≤ 90 ∧
    ((if r2 < 1 / 2 then Side.left else Side.right) = Side.left ↔ r2 < 1 / 2) ∧
    (maybeSpawn voltage current now r1 r2 prev).take prev.length = prev := by
  have hm := maybeSpawn_pos voltage current now r1 r2 prev ⟨hv, hc⟩
  refine ⟨hm, by nlinarith, by nlinarith, ?_, ?_⟩
  · by_cases hr : r2 < 1 / 2
    · simp [hr]
    · simp [hr]
  · rw [hm]
    simp [List.take_left]

/-- Witness for C8 at `voltage = 5`, `current = 1/2`, `now = 7`,
`r1 = r2 = 1/4`, empty previous population. -/
theorem claim8_witness :
    maybeSpawn 5 (1 / 2) 7 (1 / 4) (1 / 4) []
      = [] ++ [{ id := 7
                 left := (1 / 4) * 80 + 10
                 side := if (1 / 4 : ℚ) < 1 / 2 then Side.left else Side.right }] ∧
    (10 : ℚ) ≤ (1 / 4) * 80 + 10 ∧ (1 / 4 : ℚ) * 80 + 10 ≤ 90 ∧
    ((if (1 / 4 : ℚ) < 1 / 2 then Side.left else Side.right) = Side.left
      ↔ (1 / 4 : ℚ) < 1 / 2) ∧
    (maybeSpawn 5 (1 / 2) 7 (1 / 4) (1 / 4) []).take ([] : List Bubble).length
      = [] :=
  claim8_spawn_attributes 5 (1 / 2) 7 (1 / 4) (1 / 4) []
    (by norm_num) (by norm_num) (by norm_num) (by norm_num)

/-- C9 counterexample.  With `voltage = 1/2`, `current = 1/20` the gate is
false, yet both the sweep effect (lines 170-175, `[]` dependencies, no
guard) and the tracking effect (lines 177-188, unconditional `setInterval`)
still register their timers, refuting the claim that no timer is active
when the gate is false. -/
theorem claim9_counterexample :
    removeEffectRegisters (1 / 2) (1 / 20) = true ∧
    trackingEffectRegisters (1 / 2) (1 / 20) = true ∧
    ¬(1 < (1 / 2 : ℚ) ∧ 1 / 10 < (1 / 20 : ℚ)) := by
  refine ⟨rfl, rfl, ?_⟩
  rintro ⟨h, -⟩
  norm_num at h

/-- C9 amended.  Only the spawn timer is gated by
`voltage > 1 && current > 0.1`; the sweep timer and the production-tick
timer are registered unconditionally while the component is mounted, and
below the gate the tick callback leaves the production state unchanged
(the gate lives inside the callback, not around the timer). -/
theorem claim9_timer_gating (voltage current : ℚ) (s : ProdState) :
    (bubbleEffectRegisters voltage current = true ↔
      1 < voltage ∧ 1 / 10 < current) ∧
    removeEffectRegisters voltage current = true ∧
    trackingEffectRegisters voltage current = true ∧
    (¬(1 < voltage ∧ 1 / 10 < current) → tickFaraday voltage current s = s) := by
  refine ⟨?_, rfl, rfl, fun h => trackTick_neg _ _ _ _ _ h⟩
  rw [bubbleEffectRegisters]
  simp

/-- Witness for C9 amended at a below-gate input. -/
theorem claim9_witness :
    (bubbleEffectRegisters (1 / 2) (1 / 20) = true ↔
      1 < (1 / 2 : ℚ) ∧ 1 / 10 < (1 / 20 : ℚ)) ∧
    removeEffectRegisters (1 / 2) (1 / 20) = true ∧
    trackingEffectRegisters (1 / 2) (1 / 20) = true ∧
    tickFaraday (1 / 2) (1 / 20) initState = initState := by
  obtain ⟨a, b, c, d⟩ := claim9_timer_gating (1 / 2) (1 / 20) initState
  refine ⟨a, b, c, d ?_⟩
  rintro ⟨h, -⟩
  norm_num at h

end Electroliza
